import Mathlib

/-!
Verification of the Strategic Intelligence Assistant orchestration core.

This file gives a shallow embedding, in Lean 4, of the agentic research loop
implemented in `backend/graph_engine.py`, `backend/orchestrator.py`,
`backend/memory_manager.py` and `backend/rag_engine.py`, and proves or refutes
the behavioural claims made about it.

External collaborators (the Gemini reasoning model, Pinecone similarity search,
MongoDB conversation storage, and the individual research tools) are modelled
as oracles packaged in an `Env` record: each oracle yields the value the real
collaborator would return, with `Except` used where the Python call can raise.
All orchestration logic — cache gating, routing, the planner/executor loop,
step budgeting, context pruning, distillation and post-run archiving — is
translated directly from the Python source.
-/

/-! ## Text helpers

Python string membership (`needle in hay`) and slicing (`s[:n]`) are modelled
character-wise over `String.data`. -/

/-- Membership test for a character sequence inside another, mirroring the
Python `in` operator on strings. -/
def listContains (needle : List Char) : List Char → Bool
  | [] => needle.isEmpty
  | c :: rest => needle.isPrefixOf (c :: rest) || listContains needle rest

/-- Function `strContains needle hay` models Python `needle in hay`. -/
def strContains (needle hay : String) : Bool :=
  listContains needle.data hay.data

/-- Function `strTake s n` models the Python slice `s[:n]` (character based). -/
def strTake (s : String) (n : Nat) : String :=
  String.mk (s.data.take n)

/-- Function `strTrim` models Python `str.strip()`: whitespace removed from both
ends. -/
def strTrim (s : String) : String :=
  String.mk (((s.data.dropWhile Char.isWhitespace).reverse.dropWhile
    Char.isWhitespace).reverse)

/-- Function `strJoin sep xs` models Python `sep.join(xs)`. -/
def strJoin (sep : String) : List String → String
  | [] => ""
  | [x] => x
  | x :: xs => x ++ sep ++ strJoin sep xs

instance {ε α : Type} [DecidableEq ε] [DecidableEq α] : DecidableEq (Except ε α) :=
  fun x y =>
    match x, y with
    | .ok a, .ok b =>
      if h : a = b then isTrue (congrArg Except.ok h)
      else isFalse fun hh => h (by cases hh; rfl)
    | .error a, .error b =>
      if h : a = b then isTrue (congrArg Except.error h)
      else isFalse fun hh => h (by cases hh; rfl)
    | .ok _, .error _ => isFalse fun hh => Except.noConfusion hh
    | .error _, .ok _ => isFalse fun hh => Except.noConfusion hh

/-! ## Data model

Messages mirror the LangChain message classes used by the engine:
`HumanMessage`, `AIMessage` (with an optional list of tool calls),
`SystemMessage` and `ToolMessage` (tagged with the id of the tool call it
answers). -/

/-- A capability request emitted by the reasoning model: name, argument
mapping, and correlation identifier (`tool_call` dict in the source). -/
structure ToolCall where
  name : String
  args : List (String × String)
  id : String
deriving DecidableEq

/-- One entry of a run context, mirroring the LangChain message taxonomy. -/
inductive Message where
  | human (content : String)
  | ai (content : String) (tool_calls : List ToolCall)
  | system (content : String)
  | tool (content : String) (tool_call_id : String)
deriving DecidableEq

/-- The text carried by a message (`.content` in LangChain). -/
def Message.content : Message → String
  | .human c => c
  | .ai c _ => c
  | .system c => c
  | .tool c _ => c

/-- Truthiness of `getattr(msg, "tool_calls", None)`: only an `AIMessage` with a
non-empty tool-call list counts. -/
def Message.hasToolCalls : Message → Bool
  | .ai _ tcs => !tcs.isEmpty
  | _ => false

/-- The correlation identifier of a tool-observation message, if any. -/
def Message.toolCallId : Message → Option String
  | .tool _ tid => some tid
  | _ => none

/-- The graph state (`AgentState` TypedDict in `graph_engine.py`). -/
structure AgentState where
  messages : List Message
  user_id : String
  thread_id : String
  steps : Nat
deriving DecidableEq

/-- Result of `ResearchGraph.is_it_known`. -/
inductive Route where
  | known
  | unknown
deriving DecidableEq

/-- Nodes of the LangGraph workflow, used to record which nodes a run
actually executed. -/
inductive NodeKey where
  | memory_check
  | planner
  | executor
deriving DecidableEq

/-- One Pinecone similarity match as consumed by
`StrategicMemory.query_memory`: a similarity score and the stored report. -/
structure SimMatch where
  score : ℚ
  report : String
deriving DecidableEq

/-- The fixed similarity threshold of `StrategicMemory.query_memory`
(`threshold: float = 0.85`). -/
def memoryThreshold : ℚ := ⟨17, 20, by decide, by decide⟩

/-- Oracles standing for the external collaborators of one run.  Query-scoped
collaborators are functions of the query text; user scoping is baked into the
oracle.  `Except` results model Python calls that can raise. -/
structure Env where
  /-- Oracle for `self.model_with_tools.invoke` - the reasoning model: given a message
  context it returns the content and tool calls of the next `AIMessage`. -/
  llm : List Message → String × List ToolCall
  /-- Oracle for `self.distiller.invoke` inside `StrategicBrain.distill_scrape`. -/
  distillerCall : String → Except String String
  /-- Raw result of the `scrape_site` tool for given arguments. -/
  scrapeSite : List (String × String) → String
  /-- Raw result of the `read_pdf_document` tool. -/
  readPdf : List (String × String) → String
  /-- Raw result of the `web_search` tool. -/
  webSearch : List (String × String) → String
  /-- Raw result of the `execute_python` tool. -/
  executePython : List (String × String) → String
  /-- Raw Pinecone query inside `StrategicMemory.query_memory` (`top_k=1`
  list of matches); `.error` models a raised exception. -/
  memSearch : String → Except String (List SimMatch)
  /-- Raw vector search inside `RAGEngine.retrieve_relevant_context`
  (list of chunk texts); `.error` models a raised exception. -/
  ragSearch : String → Except String (List String)

/-! ## `memory_manager.py` and `rag_engine.py` -/

/-- Embeds `StrategicMemory.query_memory`: returns the stored report of the top
match when its score is at or above the threshold.  The body has no
`try`/`except`, so a failing Pinecone call propagates (`.error`). -/
def query_memory (memSearch : String → Except String (List SimMatch))
    (query : String) (threshold : ℚ) :
    Except String (Option String) :=
  match memSearch query with
  | .error e => .error e
  | .ok found =>
    match found.head? with
    | some m => .ok (if threshold ≤ m.score then some m.report else none)
    | none => .ok none

/-- Embeds `RAGEngine.retrieve_relevant_context`: joins retrieved chunks with blank
lines; any exception is caught and turned into `none` (`except ... return
None`). -/
def retrieve_relevant_context (ragSearch : String → Except String (List String))
    (query : String) : Option String :=
  match ragSearch query with
  | .error _ => none
  | .ok results =>
    if results.isEmpty then none
    else
      let context := strJoin "\n\n" results
      if strTrim context ≠ "" then some context else none

/-! ## `orchestrator.py` — `StrategicBrain` -/

/-- The context-pruning block of `StrategicBrain.get_response`:
`[messages[0]] + messages[-4:]` when the history has more than 5 entries,
otherwise the whole history. -/
def prune (messages : List Message) : List Message :=
  if messages.length > 5 then messages.take 1 ++ messages.drop (messages.length - 4)
  else messages

/-- The system instruction prepended by `StrategicBrain.get_response`
(content abridged; no claim depends on its wording). -/
def instructionText : String :=
  "You are a Strategic Researcher. Your objective is to solve complex queries autonomously using the available tools."

/-- Embeds `StrategicBrain.get_response`: prunes the history, prepends the system
instruction and invokes the tool-bound model. -/
def get_response (llm : List Message → String × List ToolCall)
    (messages : List Message) : Message :=
  let pruned := prune messages
  let r := llm (Message.system instructionText :: pruned)
  Message.ai r.1 r.2

/-- The prompt built by `StrategicBrain.distill_scrape`. -/
def distillPrompt (query truncated : String) : String :=
  "Topic: " ++ query ++ ". Extract specific metrics, dates, and core facts from this raw text:\n\n" ++ truncated

/-- Embeds `StrategicBrain.distill_scrape`: truncates the raw text to 15000
characters, calls the distiller model, and converts any exception into a
short diagnostic string. -/
def distill_scrape (distillerCall : String → Except String String)
    (raw_text query : String) : String :=
  let truncated := strTake raw_text 15000
  match distillerCall (distillPrompt query truncated) with
  | .ok response => response
  | .error e => "Context distillation failed: " ++ strTake e 100

/-! ## `graph_engine.py` — `ResearchGraph` node logic -/

/-- Sentinel marking a cache-hit message (`"[FROM MEMORY]"`). -/
def memorySentinel : String := "[FROM MEMORY]"

/-- Tag prefixed to a cached report by `check_cache`
(`f"🧠 [FROM MEMORY]\n{cached_report}"`). -/
def memTag : String := "🧠 [FROM MEMORY]\n"

/-- Leading part of the RAG context system message built by `check_cache`. -/
def pdfTagPre : String :=
  "📄 [FROM YOUR DOCUMENTS]\nRelevant context from your uploaded PDFs:\n\n"

/-- Trailing part of the RAG context system message built by `check_cache`. -/
def pdfTagPost : String :=
  "\n\nIMPORTANT: Use this information from the documents to answer the query. If the answer can be found in these documents, use it directly without searching the web."

/-- Embeds `ResearchGraph.check_cache`: queries the similarity cache and the RAG
store with `messages[0].content` and returns the synthetic context messages
to append (cache-hit `AIMessage` first, RAG `SystemMessage` second).  The
`query_memory` call is not guarded, so its failure propagates; an empty
cached report is falsy in Python (`if cached_report:`) and adds no message. -/
def check_cache (env : Env) (st : AgentState) : Except String (List Message) :=
  match st.messages.head? with
  | none => .error "IndexError: messages is empty"
  | some m0 =>
    let query := m0.content
    match query_memory env.memSearch query memoryThreshold with
    | .error e => .error e
    | .ok cached =>
      let pdf_context := retrieve_relevant_context env.ragSearch query
      let ctx1 : List Message :=
        match cached with
        | some report =>
          if report ≠ "" then [Message.ai (memTag ++ report) []] else []
        | none => []
      let ctx2 : List Message :=
        match pdf_context with
        | some c =>
          if strTrim c ≠ "" then ctx1 ++ [Message.system (pdfTagPre ++ c ++ pdfTagPost)]
          else ctx1
        | none => ctx1
      .ok ctx2

/-- Embeds `ResearchGraph.is_it_known`: routes on whether the *last* message is an
`AIMessage` containing the memory sentinel. -/
def is_it_known (st : AgentState) : Route :=
  match st.messages.getLast? with
  | none => Route.unknown
  | some m =>
    match m with
    | .ai c _ => if strContains memorySentinel c then Route.known else Route.unknown
    | _ => Route.unknown

/-- The soft-budget warning injected by `call_model` when `steps > 8`. -/
def warningText : String :=
  "URGENT: You have only 2 steps left. STOP researching immediately. Use the information you already have to provide the best possible final answer."

/-- Embeds `ResearchGraph.call_model` (the `planner` node): optionally injects the
soft-budget warning, invokes the reasoning model through
`StrategicBrain.get_response`, appends the response, and increments the step
counter by exactly one.  Returns the new state and the response message. -/
def call_model (env : Env) (st : AgentState) : AgentState × Message :=
  let current_steps := st.steps
  let msgs :=
    if current_steps > 8 then st.messages ++ [Message.system warningText]
    else st.messages
  let response := get_response env.llm msgs
  ({ st with messages := msgs ++ [response], steps := current_steps + 1 }, response)

/-- The capability names the `call_tool` branch chain recognises. -/
def knownCapability (name : String) : Bool :=
  name = "scrape_site" || name = "read_pdf_document" || name = "query_user_pdfs" ||
    name = "web_search" || name = "execute_python"

/-- Modelled from the spec: the large-result criterion of §4.4 — the
capabilities whose raw results are large (full-page scrapes, full-document
text) and must be distilled, as opposed to the compact-result capabilities
(search snippets, retrieval answers, computed output). -/
def largeResultCapability (name : String) : Bool :=
  name = "scrape_site" || name = "read_pdf_document"

/-- The Python error raised when an unknown capability name reaches the
dispatch chain with no prior iteration having assigned `result`. -/
def unboundLocalError : String :=
  "UnboundLocalError: local variable result referenced before assignment"

/-- Fallback text of the `query_user_pdfs` branch when retrieval finds
nothing. -/
def noPdfInfo : String := "No relevant information found in your uploaded documents."

/-- One iteration of the dispatch loop in `ResearchGraph.call_tool`.  `prev`
is the value of the Python local `result` left over from the previous
iteration: the branch chain has no `else`, so an unknown capability name
either re-reads that stale value or, on the first iteration, raises
`UnboundLocalError`. -/
def dispatchOne (env : Env) (original_query : String) (prev : Option String)
    (tc : ToolCall) : Except String String :=
  if tc.name = "scrape_site" then
    .ok (distill_scrape env.distillerCall (env.scrapeSite tc.args) original_query)
  else if tc.name = "read_pdf_document" then
    .ok (distill_scrape env.distillerCall (env.readPdf tc.args) original_query)
  else if tc.name = "query_user_pdfs" then
    let query_text :=
      match tc.args.lookup "query" with
      | some v => v
      | none => original_query
    .ok (match retrieve_relevant_context env.ragSearch query_text with
      | some c => c
      | none => noPdfInfo)
  else if tc.name = "web_search" then .ok (env.webSearch tc.args)
  else if tc.name = "execute_python" then .ok (env.executePython tc.args)
  else
    match prev with
    | some r => .ok r
    | none => .error unboundLocalError

/-- The dispatch loop of `ResearchGraph.call_tool`: one `ToolMessage` per
tool call, tagged with the call identifier, in request order; a raised
exception aborts the whole node. -/
def dispatchAll (env : Env) (original_query : String) :
    Option String → List ToolCall → Except String (List Message)
  | _, [] => .ok []
  | prev, tc :: rest =>
    match dispatchOne env original_query prev tc with
    | .error e => .error e
    | .ok r =>
      match dispatchAll env original_query (some r) rest with
      | .error e => .error e
      | .ok msgs => .ok (Message.tool r tc.id :: msgs)

/-- Embeds `ResearchGraph.call_tool` (the `executor` node): reads the tool calls of
the last message and dispatches them, with `messages[0].content` as the
original query. -/
def call_tool (env : Env) (st : AgentState) : Except String (List Message) :=
  match st.messages.head? with
  | none => .error "IndexError: messages is empty"
  | some m0 =>
    match st.messages.getLast? with
    | none => .error "IndexError: messages is empty"
    | some last =>
      match last with
      | .ai _ tcs => dispatchAll env m0.content none tcs
      | _ => .error "AttributeError: message has no tool calls"

/-- Embeds `ResearchGraph.should_continue`: `"end"` (`false`) once the hard cap of
12 steps is reached, regardless of pending tool calls; otherwise `"continue"`
(`true`) exactly when the last message carries tool calls. -/
def should_continue (st : AgentState) : Bool :=
  if 12 ≤ st.steps then false
  else
    match st.messages.getLast? with
    | some m => m.hasToolCalls
    | none => false

/-- State update of the `executor` node: tool observations are appended to
the message channel; the step counter is untouched (`call_tool` returns no
`steps` key). -/
def applyToolOutputs (st : AgentState) (outs : List Message) : AgentState :=
  { st with messages := st.messages ++ outs }

/-- Outcome of the planner/executor loop: the latest terminal answer text
seen by the stream consumer in `run`, the final graph state, and the node
trace. -/
structure EngineResult where
  finalMsg : String
  state : AgentState
  trace : List NodeKey
deriving DecidableEq

/-- The planner/executor loop of the compiled graph, driven by the remaining
superstep budget (`recursion_limit`).  Each planner or executor execution
consumes one superstep; exhausting the budget models LangGraph's
`GraphRecursionError`. -/
def engineLoop (env : Env) : Nat → AgentState → String → List NodeKey →
    Except String EngineResult
  | 0, _, _, _ => .error "GraphRecursionError"
  | fuel + 1, st, finalMsg, trace =>
    let stepped := call_model env st
    let st' := stepped.1
    let response := stepped.2
    let trace' := trace ++ [NodeKey.planner]
    let finalMsg' :=
      if response.hasToolCalls then finalMsg else response.content
    if should_continue st' then
      match fuel with
      | 0 => .error "GraphRecursionError"
      | fuel' + 1 =>
        match call_tool env st' with
        | .error e => .error e
        | .ok outs =>
          engineLoop env fuel' (applyToolOutputs st' outs) finalMsg'
            (trace' ++ [NodeKey.executor])
    else .ok ⟨finalMsg', st', trace'⟩

/-! ## `graph_engine.py` — `ResearchGraph.run` -/

/-- Conversion of stored conversation dicts back to LangChain messages at the
start of `run`: only `"user"` and `"assistant"` roles are rebuilt. -/
def loadConversation (history : List (String × String)) : List Message :=
  history.filterMap fun p =>
    if p.1 = "user" then some (Message.human p.2)
    else if p.1 = "assistant" then some (Message.ai p.2 [])
    else none

/-- The message list `run` starts from: the rebuilt conversation history
followed by the new query as a `HumanMessage`. -/
def initMessages (history : List (String × String)) (query : String) : List Message :=
  loadConversation history ++ [Message.human query]

/-- The first message of a run's context (`messages[0]`, called
`original_query` by `call_tool`). -/
def anchor (history : List (String × String)) (query : String) : Message :=
  (initMessages history query).headD (Message.human query)

/-- The `initial_state` dict built by `run`: fresh step counter at 0. -/
def initialState (history : List (String × String))
    (query thread_id user_id : String) : AgentState :=
  { messages := initMessages history query
    user_id := user_id
    thread_id := thread_id
    steps := 0 }

/-- Conversion of messages to storage dicts at the end of `run`
(`messages_for_storage`): tool messages carry none of the three handled
roles and are dropped. -/
def messagesForStorage (msgs : List Message) : List (String × String) :=
  msgs.filterMap fun m =>
    match m with
    | .human c => some ("user", c)
    | .ai c _ => some ("assistant", c)
    | .system c => some ("system", c)
    | .tool _ _ => none

/-- The apology fallback returned when no terminal answer was recorded. -/
def fallbackText : String :=
  "I apologize, but I could not generate a response. Please try again."

/-- The similarity-cache write performed at the end of `run`: the final
report is upserted only when `final_msg` is truthy and does not contain the
memory sentinel.  The event records `(query, report, user_id)` as passed to
`StrategicMemory.save_to_memory`. -/
def memWriteDecision (query finalMsg user_id : String) :
    Option (String × String × String) :=
  if finalMsg ≠ "" then
    if strContains memorySentinel finalMsg then none
    else some (query, finalMsg, user_id)
  else none

/-- Observable outcome of `ResearchGraph.run`: the returned answer, the raw
`final_msg`, the node trace, the final graph state, the similarity-cache
write event (if any) and the conversation list saved to MongoDB (if any). -/
structure RunResult where
  answer : String
  finalMsg : String
  trace : List NodeKey
  state : AgentState
  memWrite : Option (String × String × String)
  stored : Option (List (String × String))
deriving DecidableEq

/-- Post-processing block of `run`: answer fallback, conditional
similarity-cache write, conditional conversation save. -/
def finishRun (initMsgs : List Message) (query user_id : String)
    (finalMsg : String) (st : AgentState) (trace : List NodeKey) : RunResult :=
  { answer := if finalMsg ≠ "" then finalMsg else fallbackText
    finalMsg := finalMsg
    trace := trace
    state := st
    memWrite := if finalMsg ≠ "" then memWriteDecision query finalMsg user_id else none
    stored :=
      if finalMsg ≠ "" then
        some (messagesForStorage (initMsgs ++ [Message.ai finalMsg []]))
      else none }

/-- Embeds `ResearchGraph.run`: loads history, builds the initial state, runs the
graph (entry node `memory_check`, then the conditional `is_it_known` edge:
`known → END`, `unknown → planner`), and post-processes.  The
`recursion_limit` of 20 supersteps leaves 19 for the planner/executor loop
after `memory_check`. -/
def run (env : Env) (history : List (String × String))
    (query thread_id user_id : String) : Except String RunResult :=
  let messages := initMessages history query
  let st0 := initialState history query thread_id user_id
  match check_cache env st0 with
  | .error e => .error e
  | .ok ctx =>
    let st1 := { st0 with messages := st0.messages ++ ctx }
    let fm0 :=
      match ctx.getLast? with
      | some m => if m.hasToolCalls then "" else m.content
      | none => ""
    match is_it_known st1 with
    | Route.known => .ok (finishRun messages query user_id fm0 st1 [NodeKey.memory_check])
    | Route.unknown =>
      match engineLoop env 19 st1 fm0 [NodeKey.memory_check] with
      | .error e => .error e
      | .ok r => .ok (finishRun messages query user_id r.finalMsg r.state r.trace)

/-! ## Concrete fixtures used by witnesses and counterexamples -/

/-- A similarity score of 0.9, above the 0.85 threshold. -/
def scoreNine : ℚ := ⟨9, 10, by decide, by decide⟩

/-- Baseline oracle set: no cache hit, no RAG context, a reasoning model that
immediately produces a terminal answer. -/
def envBase : Env :=
  { llm := fun _ => ("The answer is 4.", [])
    distillerCall := fun _ => Except.ok "distilled summary"
    scrapeSite := fun _ => "scraped page body"
    readPdf := fun _ => "pdf document text"
    webSearch := fun _ => "search snippet"
    executePython := fun _ => "42"
    memSearch := fun _ => Except.ok []
    ragSearch := fun _ => Except.ok [] }

/-- Oracles with a similarity-cache hit at score 0.9 and no RAG context. -/
def envHit : Env :=
  { envBase with memSearch := fun _ => Except.ok [⟨scoreNine, "cached report"⟩] }

/-- Oracles with a similarity-cache hit at score 0.9 *and* non-empty RAG
context. -/
def envBoth : Env :=
  { envHit with ragSearch := fun _ => Except.ok ["chunk from pdf"] }

/-- Oracles whose similarity-cache lookup raises. -/
def envMemFail : Env :=
  { envBase with memSearch := fun _ => Except.error "PineconeError: connection failed" }

/-- Oracles whose RAG vector search raises. -/
def envRagFail : Env :=
  { envBase with ragSearch := fun _ => Except.error "RagDown" }

/-- A state at the hard step cap whose last message still requests a
capability. -/
def stCap : AgentState :=
  { messages := [Message.ai "searching more" [⟨"web_search", [("query", "x")], "w1"⟩]]
    user_id := "u", thread_id := "t", steps := 12 }

/-- A state whose last message requests the unknown capability `xyz` as its
first (and only) tool call. -/
def stateUnknownTool : AgentState :=
  { messages := [Message.human "analyze", Message.ai "calling xyz" [⟨"xyz", [], "call_1"⟩]]
    user_id := "u", thread_id := "t", steps := 1 }

/-- An unknown-capability request used for the dispatcher counterexample. -/
def xyzRequest : ToolCall := ⟨"xyz", [], "id_1"⟩

/-- A six-message history (forces pruning). -/
def sampleMsgs6 : List Message :=
  [Message.human "a", Message.ai "b" [], Message.system "c",
   Message.human "d", Message.ai "e" [], Message.human "f"]

/-- A three-message history (no pruning). -/
def sampleMsgs3 : List Message :=
  [Message.human "a", Message.ai "b" [], Message.human "c"]

/-- A distiller call that always fails, for the distillation-failure
witness. -/
def failCall : String → Except String String :=
  fun _ => Except.error "429 RESOURCE_EXHAUSTED"

/-- Node trace of a run outcome (empty for an aborted run). -/
def okTrace : Except String RunResult → List NodeKey
  | .ok r => r.trace
  | .error _ => []

/-- Final step count of a loop outcome (0 for an aborted loop). -/
def engineStepsOf : Except String EngineResult → Nat
  | .ok r => r.state.steps
  | .error _ => 0

/-- Final step count of a run outcome (0 for an aborted run). -/
def runStepsOf : Except String RunResult → Nat
  | .ok r => r.state.steps
  | .error _ => 0

/-- First context message of a run outcome. -/
def stateHeadOf : Except String RunResult → Option Message
  | .ok r => r.state.messages.head?
  | .error _ => none

/-- First stored conversation entry of a run outcome. -/
def storedHeadOf : Except String RunResult → Option (String × String)
  | .ok r =>
    match r.stored with
    | some s => s.head?
    | none => none
  | .error _ => none

/-- Similarity-cache write event of a run outcome. -/
def memWriteOf : Except String RunResult → Option (String × String × String)
  | .ok r => r.memWrite
  | .error _ => none

/-- The full observable outcome of the baseline run `run envBase [] "q" "t" "u"`. -/
def resultBase : RunResult :=
  { answer := "The answer is 4."
    finalMsg := "The answer is 4."
    trace := [NodeKey.memory_check, NodeKey.planner]
    state :=
      { messages := [Message.human "q", Message.ai "The answer is 4." []]
        user_id := "u", thread_id := "t", steps := 1 }
    memWrite := some ("q", "The answer is 4.", "u")
    stored := some [("user", "q"), ("assistant", "The answer is 4.")] }

/-- The full observable outcome of the cache-hit run `run envHit [] "q2" "t" "u"`. -/
def resultHit : RunResult :=
  { answer := memTag ++ "cached report"
    finalMsg := memTag ++ "cached report"
    trace := [NodeKey.memory_check]
    state :=
      { messages := [Message.human "q2", Message.ai (memTag ++ "cached report") []]
        user_id := "u", thread_id := "t", steps := 0 }
    memWrite := none
    stored := some [("user", "q2"), ("assistant", memTag ++ "cached report")] }

/-- The raw (pre-distillation) result of each known capability branch of
`call_tool`, used to state when distillation is applied. -/
def rawResult (env : Env) (original_query : String) (tc : ToolCall) : String :=
  if tc.name = "scrape_site" then env.scrapeSite tc.args
  else if tc.name = "read_pdf_document" then env.readPdf tc.args
  else if tc.name = "query_user_pdfs" then
    match retrieve_relevant_context env.ragSearch
        (match tc.args.lookup "query" with
         | some v => v
         | none => original_query) with
    | some c => c
    | none => noPdfInfo
  else if tc.name = "web_search" then env.webSearch tc.args
  else env.executePython tc.args

/-! ## Helper lemmas -/

theorem listContains_cons (n : List Char) (c : Char) (t : List Char)
    (h : listContains n t = true) : listContains n (c :: t) = true := by
  simp [listContains, h]

theorem listContains_append_left (pre n h : List Char)
    (hh : listContains n h = true) : listContains n (pre ++ h) = true := by
  induction pre with
  | nil => simpa using hh
  | cons c t ih => simpa using listContains_cons n c (t ++ h) ih

theorem isPrefixOf_self_append (l rest : List Char) :
    l.isPrefixOf (l ++ rest) = true := by
  induction l with
  | nil => simp [List.isPrefixOf]
  | cons c t ih => simp [List.isPrefixOf, ih]

theorem listContains_self_append (n rest : List Char) :
    listContains n (n ++ rest) = true := by
  cases n with
  | nil => cases rest <;> simp [listContains, List.isPrefixOf]
  | cons c t =>
    have h := isPrefixOf_self_append (c :: t) rest
    simp only [List.cons_append, listContains]
    simp [h]

theorem strContains_memTag (r : String) :
    strContains memorySentinel (memTag ++ r) = true := by
  have h1 : memTag.data = "🧠 ".data ++ memorySentinel.data ++ "\n".data := by decide
  have h2 : (memTag ++ r).data =
      "🧠 ".data ++ (memorySentinel.data ++ ("\n".data ++ r.data)) := by
    rw [String.data_append, h1]
    simp [List.append_assoc]
  unfold strContains
  rw [h2]
  exact listContains_append_left _ _ _
    (listContains_self_append memorySentinel.data ("\n".data ++ r.data))

theorem string_append_ne_empty (s t : String) (h : s.data ≠ []) : s ++ t ≠ "" := by
  intro he
  have hd : (s ++ t).data = String.data "" := congrArg String.data he
  rw [String.data_append] at hd
  have : s.data = [] := (List.append_eq_nil.mp hd).1
  exact h this

theorem memTag_append_ne_empty (r : String) : memTag ++ r ≠ "" :=
  string_append_ne_empty memTag r (by decide)

theorem head?_append_left {α : Type} (l l' : List α) (a : α)
    (h : l.head? = some a) : (l ++ l').head? = some a := by
  cases l with
  | nil => simp at h
  | cons x t => simpa using h

theorem initMessages_ne_nil (history : List (String × String)) (query : String) :
    initMessages history query ≠ [] := by
  unfold initMessages
  intro h
  have := (List.append_eq_nil.mp h).2
  simp at this

theorem initMessages_head (history : List (String × String)) (query : String) :
    (initMessages history query).head? = some (anchor history query) := by
  unfold anchor initMessages
  cases h : loadConversation history with
  | nil => simp [h]
  | cons a l => simp [h]

theorem call_model_steps (env : Env) (st : AgentState) :
    (call_model env st).1.steps = st.steps + 1 := rfl

theorem applyToolOutputs_steps (st : AgentState) (outs : List Message) :
    (applyToolOutputs st outs).steps = st.steps := rfl

theorem should_continue_cap (st : AgentState) (h : 12 ≤ st.steps) :
    should_continue st = false := by
  unfold should_continue
  rw [if_pos h]

theorem should_continue_true_steps (st : AgentState)
    (h : should_continue st = true) : st.steps ≤ 11 := by
  unfold should_continue at h
  by_cases hc : 12 ≤ st.steps
  · rw [if_pos hc] at h; exact absurd h (by simp)
  · omega

theorem call_model_head (env : Env) (st : AgentState) (a : Message)
    (h : st.messages.head? = some a) :
    (call_model env st).1.messages.head? = some a := by
  unfold call_model
  by_cases hc : st.steps > 8 <;>
    simp only [hc, if_true, if_false, ite_true, ite_false] <;>
    exact head?_append_left _ _ a (by first
      | exact h
      | exact head?_append_left _ _ a h)

theorem engineLoop_steps_le (env : Env) :
    ∀ fuel (st : AgentState) (fm : String) (tr : List NodeKey) (r : EngineResult),
      st.steps ≤ 11 → engineLoop env fuel st fm tr = Except.ok r →
      r.state.steps ≤ 12 := by
  intro fuel
  induction fuel using Nat.strong_induction_on with
  | _ fuel ih =>
    intro st fm tr r hle heq
    cases fuel with
    | zero => simp [engineLoop] at heq
    | succ f =>
      unfold engineLoop at heq
      by_cases hsc : should_continue (call_model env st).1
      · rw [if_pos hsc] at heq
        cases f with
        | zero => simp at heq
        | succ f' =>
          cases hct : call_tool env (call_model env st).1 with
          | error e => rw [hct] at heq; simp at heq
          | ok outs =>
            rw [hct] at heq
            have hst : (applyToolOutputs (call_model env st).1 outs).steps ≤ 11 := by
              rw [applyToolOutputs_steps]
              exact should_continue_true_steps _ hsc
            exact ih f' (by omega) _ _ _ r hst heq
      · rw [if_neg hsc] at heq
        have hr : r.state = (call_model env st).1 := by
          cases heq; rfl
        rw [hr, call_model_steps]
        omega

theorem engineLoop_head (env : Env) :
    ∀ fuel (st : AgentState) (fm : String) (tr : List NodeKey) (r : EngineResult)
      (a : Message), st.messages.head? = some a →
      engineLoop env fuel st fm tr = Except.ok r →
      r.state.messages.head? = some a := by
  intro fuel
  induction fuel using Nat.strong_induction_on with
  | _ fuel ih =>
    intro st fm tr r a hhead heq
    cases fuel with
    | zero => simp [engineLoop] at heq
    | succ f =>
      unfold engineLoop at heq
      have hhead' : (call_model env st).1.messages.head? = some a :=
        call_model_head env st a hhead
      by_cases hsc : should_continue (call_model env st).1
      · rw [if_pos hsc] at heq
        cases f with
        | zero => simp at heq
        | succ f' =>
          cases hct : call_tool env (call_model env st).1 with
          | error e => rw [hct] at heq; simp at heq
          | ok outs =>
            rw [hct] at heq
            have hst : (applyToolOutputs (call_model env st).1 outs).messages.head? = some a := by
              unfold applyToolOutputs
              exact head?_append_left _ _ a hhead'
            exact ih f' (by omega) _ _ _ r a hst heq
      · rw [if_neg hsc] at heq
        have hr : r.state = (call_model env st).1 := by
          cases heq; rfl
        rw [hr]
        exact hhead'

theorem engineLoop_trace (env : Env) :
    ∀ fuel (st : AgentState) (fm : String) (tr : List NodeKey) (r : EngineResult),
      engineLoop env fuel st fm tr = Except.ok r →
      ∃ rest, r.trace = tr ++ [NodeKey.planner] ++ rest := by
  intro fuel
  induction fuel using Nat.strong_induction_on with
  | _ fuel ih =>
    intro st fm tr r heq
    cases fuel with
    | zero => simp [engineLoop] at heq
    | succ f =>
      unfold engineLoop at heq
      by_cases hsc : should_continue (call_model env st).1
      · rw [if_pos hsc] at heq
        cases f with
        | zero => simp at heq
        | succ f' =>
          cases hct : call_tool env (call_model env st).1 with
          | error e => rw [hct] at heq; simp at heq
          | ok outs =>
            rw [hct] at heq
            obtain ⟨rest, hrest⟩ := ih f' (by omega) _ _ _ r heq
            refine ⟨NodeKey.executor :: NodeKey.planner :: rest, ?_⟩
            rw [hrest]
            simp
      · rw [if_neg hsc] at heq
        have hr : r.trace = tr ++ [NodeKey.planner] := by
          cases heq; rfl
        exact ⟨[], by rw [hr]; simp⟩

theorem finishRun_finalMsg (im : List Message) (q u fm : String)
    (st : AgentState) (tr : List NodeKey) :
    (finishRun im q u fm st tr).finalMsg = fm := rfl

theorem finishRun_memWrite (im : List Message) (q u fm : String)
    (st : AgentState) (tr : List NodeKey) :
    (finishRun im q u fm st tr).memWrite = memWriteDecision q fm u := by
  unfold finishRun
  by_cases h : fm = ""
  · subst h; simp [memWriteDecision]
  · simp [h]

/-! ## Claim theorems -/

/-- Claim C2: for every run, the step counter starts at 0, is incremented
exactly once per reasoning-policy (planner) execution and never by a
capability execution, never exceeds 12, and once it reaches 12 the next
routing decision is forced to the terminal branch even when the response
still carries capability requests. -/
theorem claim_C2_step_budget :
    (∀ history query thread_id user_id,
      (initialState history query thread_id user_id).steps = 0) ∧
    (∀ env st, (call_model env st).1.steps = st.steps + 1) ∧
    (∀ st outs, (applyToolOutputs st outs).steps = st.steps) ∧
    (∀ st, 12 ≤ st.steps → should_continue st = false) ∧
    (∀ env fuel st fm tr r, st.steps ≤ 11 →
      engineLoop env fuel st fm tr = Except.ok r → r.state.steps ≤ 12) ∧
    (∀ env history query thread_id user_id r,
      run env history query thread_id user_id = Except.ok r →
      r.state.steps ≤ 12) := by
  refine ⟨fun _ _ _ _ => rfl, fun _ _ => rfl, fun _ _ => rfl,
    should_continue_cap, engineLoop_steps_le, ?_⟩
  intro env history query thread_id user_id r heq
  simp only [run] at heq
  split at heq
  · exact absurd heq (by simp)
  · split at heq
    · cases heq
      simp [finishRun, initialState]
    · split at heq
      · exact absurd heq (by simp)
      · rename_i er hee
        cases heq
        have hb := engineLoop_steps_le env 19 _ _ _ er (by simp [initialState]) hee
        simpa [finishRun] using hb

/-- Witness for C2: concrete instantiations discharging each hypothesis. -/
theorem claim_C2_step_budget_witness :
    (initialState [] "q" "t" "u").steps = 0 ∧
    should_continue stCap = false ∧
    engineStepsOf (engineLoop envBase 19 (initialState [] "q" "t" "u") "" []) ≤ 12 ∧
    runStepsOf (run envBase [] "q" "t" "u") ≤ 12 := by
  refine ⟨claim_C2_step_budget.1 [] "q" "t" "u",
    claim_C2_step_budget.2.2.2.1 stCap (by decide), ?_, ?_⟩
  · cases hrun : engineLoop envBase 19 (initialState [] "q" "t" "u") "" [] with
    | error e => simp [engineStepsOf]
    | ok r =>
      have := claim_C2_step_budget.2.2.2.2.1 envBase 19
        (initialState [] "q" "t" "u") "" [] r (by decide) hrun
      simpa [engineStepsOf] using this
  · cases hrun : run envBase [] "q" "t" "u" with
    | error e => simp [runStepsOf]
    | ok r =>
      have := claim_C2_step_budget.2.2.2.2.2 envBase [] "q" "t" "u" r hrun
      simpa [runStepsOf] using this

/-- Claim C4: the pruned view handed to the reasoning policy equals the full
history when it has at most 5 messages, and otherwise consists of exactly
message 0 followed by the last 4 messages, 5 messages in total. -/
theorem claim_C4_context_pruning (msgs : List Message) :
    (msgs.length ≤ 5 → prune msgs = msgs) ∧
    (∀ m0, msgs.head? = some m0 → 5 < msgs.length →
      prune msgs = m0 :: msgs.drop (msgs.length - 4) ∧
      (prune msgs).length = 5) := by
  constructor
  · intro h
    unfold prune
    rw [if_neg (by omega)]
  · intro m0 h0 h5
    have hne : msgs ≠ [] := by
      intro h
      subst h
      simp at h0
    obtain ⟨a, t, rfl⟩ := List.exists_cons_of_ne_nil hne
    simp only [List.head?_cons, Option.some.injEq] at h0
    subst h0
    unfold prune
    rw [if_pos (by omega)]
    constructor
    · simp
    · simp only [List.length_append, List.length_take, List.length_drop]
      simp only [List.length_cons] at h5 ⊢
      omega

/-- Witness for C4: a six-message history is pruned to the anchor plus the
last four; a three-message history is left intact. -/
theorem claim_C4_context_pruning_witness :
    prune sampleMsgs6 =
      Message.human "a" :: sampleMsgs6.drop (sampleMsgs6.length - 4) ∧
    (prune sampleMsgs6).length = 5 ∧
    prune sampleMsgs3 = sampleMsgs3 := by
  obtain ⟨h1, h2⟩ :=
    (claim_C4_context_pruning sampleMsgs6).2 (Message.human "a") rfl (by decide)
  exact ⟨h1, h2, (claim_C4_context_pruning sampleMsgs3).1 (by decide)⟩

theorem strTake_idem (s : String) (n : Nat) : strTake (strTake s n) n = strTake s n := by
  unfold strTake
  rw [List.take_take]
  simp

/-- Claim C9: the Context Distiller passes at most the first 15000 characters
of the raw text to the secondary model (its behaviour depends only on that
prefix), and a failing distiller call yields the fixed diagnostic string —
never an exception and never an empty result. -/
theorem claim_C9_distiller_safety :
    (∀ (call : String → Except String String) (raw q : String),
      distill_scrape call raw q = distill_scrape call (strTake raw 15000) q) ∧
    (∀ (call : String → Except String String) (raw q e : String),
      call (distillPrompt q (strTake raw 15000)) = Except.error e →
      distill_scrape call raw q = "Context distillation failed: " ++ strTake e 100 ∧
      distill_scrape call raw q ≠ "") := by
  constructor
  · intro call raw q
    simp only [distill_scrape]
    rw [strTake_idem]
  · intro call raw q e herr
    simp only [distill_scrape]
    rw [herr]
    exact ⟨rfl, string_append_ne_empty _ _ (by decide)⟩

/-- Witness for C9: a distiller that always fails produces the non-empty
diagnostic string. -/
theorem claim_C9_distiller_safety_witness :
    distill_scrape failCall "raw page text" "q" =
      "Context distillation failed: " ++ strTake "429 RESOURCE_EXHAUSTED" 100 ∧
    distill_scrape failCall "raw page text" "q" ≠ "" :=
  (claim_C9_distiller_safety.2 failCall "raw page text" "q"
    "429 RESOURCE_EXHAUSTED" rfl)

/-- Claim C10: the final answer is upserted into the similarity cache exactly
when it is non-empty and free of the memory sentinel; a cache-hit answer
(which carries the sentinel) is never written back. -/
theorem claim_C10_memory_writeback :
    (∀ q m u, (memWriteDecision q m u).isSome = true ↔
      (m ≠ "" ∧ strContains memorySentinel m = false)) ∧
    (∀ q u report, memWriteDecision q (memTag ++ report) u = none) ∧
    (∀ env history query thread_id user_id r,
      run env history query thread_id user_id = Except.ok r →
      r.memWrite = memWriteDecision query r.finalMsg user_id) := by
  refine ⟨?_, ?_, ?_⟩
  · intro q m u
    unfold memWriteDecision
    by_cases h : m = ""
    · subst h; simp
    · rw [if_pos h]
      by_cases hc : strContains memorySentinel m = true
      · rw [if_pos hc]; simp [h, hc]
      · rw [if_neg hc]
        simp only [Bool.not_eq_true] at hc
        simp [h, hc]
  · intro q u report
    unfold memWriteDecision
    rw [if_pos (memTag_append_ne_empty report), if_pos (strContains_memTag report)]
  · intro env history query thread_id user_id r heq
    simp only [run] at heq
    split at heq
    · exact absurd heq (by simp)
    · split at heq
      · cases heq
        simp [finishRun_memWrite, finishRun_finalMsg]
      · split at heq
        · exact absurd heq (by simp)
        · cases heq
          simp [finishRun_memWrite, finishRun_finalMsg]

/-- Witness for C10: a fresh research answer is written back; the cache-hit
run writes nothing. -/
theorem claim_C10_memory_writeback_witness :
    memWriteOf (run envBase [] "q" "t" "u") = some ("q", "The answer is 4.", "u") ∧
    memWriteOf (run envHit [] "q2" "t" "u") = none := by
  constructor
  · have h1 : run envBase [] "q" "t" "u" = Except.ok resultBase := by decide
    have h3 := claim_C10_memory_writeback.2.2 envBase [] "q" "t" "u" resultBase h1
    rw [h1]
    simp only [memWriteOf]
    rw [h3]
    decide
  · have h2 : run envHit [] "q2" "t" "u" = Except.ok resultHit := by decide
    have h4 := claim_C10_memory_writeback.2.2 envHit [] "q2" "t" "u" resultHit h2
    rw [h2]
    simp only [memWriteOf]
    rw [h4]
    exact claim_C10_memory_writeback.2.1 "q2" "u" "cached report"

theorem dispatchOne_known (env : Env) (q : String) (prev : Option String)
    (tc : ToolCall) (h : knownCapability tc.name = true) :
    ∃ r, dispatchOne env q prev tc = Except.ok r := by
  unfold knownCapability at h
  simp only [Bool.or_eq_true, decide_eq_true_eq] at h
  unfold dispatchOne
  rcases h with ((((h | h) | h) | h) | h) <;> rw [h] <;> simp

/-- Claim C3: the spec requires an unknown capability name to be surfaced as
an error observation carrying the name, with the loop continuing; the code
instead has no fallback branch, so the dispatch of an unknown name as the
first request of a turn evaluates to an unbound-local failure that aborts the
node (and, after a successful earlier request in the same turn, silently
replays that request's result). -/
theorem claim_C3_unknown_capability_crash (env : Env) :
    call_tool env stateUnknownTool = Except.error unboundLocalError ∧
    dispatchAll env "analyze" (some "stale result") [⟨"xyz", [], "call_1"⟩] =
      Except.ok [Message.tool "stale result" "call_1"] := by
  constructor
  · simp [call_tool, stateUnknownTool, dispatchAll, dispatchOne]
  · simp [dispatchAll, dispatchOne]

/-- Claim C5 (criterion from §4.4: the large-result capabilities are the
full-page scrape and full-document read): a dispatched known capability is
passed through the Context Distiller exactly when it is a large-result
capability, and its raw result is appended verbatim otherwise. -/
theorem claim_C5_distillation_iff (env : Env) (q : String) (prev : Option String)
    (tc : ToolCall) (h : knownCapability tc.name = true) :
    dispatchOne env q prev tc =
      Except.ok (if largeResultCapability tc.name then
        distill_scrape env.distillerCall (rawResult env q tc) q
      else rawResult env q tc) := by
  unfold knownCapability at h
  simp only [Bool.or_eq_true, decide_eq_true_eq] at h
  rcases h with ((((h | h) | h) | h) | h) <;>
    simp [dispatchOne, rawResult, largeResultCapability, h]

/-- Witness for C5: a scrape result is distilled, a web-search result is
appended verbatim. -/
theorem claim_C5_distillation_iff_witness :
    dispatchOne envBase "topic" none ⟨"scrape_site", [("url", "x")], "c1"⟩ =
      Except.ok (distill_scrape envBase.distillerCall
        (rawResult envBase "topic" ⟨"scrape_site", [("url", "x")], "c1"⟩) "topic") ∧
    dispatchOne envBase "topic" none ⟨"web_search", [("query", "y")], "c2"⟩ =
      Except.ok (rawResult envBase "topic" ⟨"web_search", [("query", "y")], "c2"⟩) := by
  constructor
  · have h := claim_C5_distillation_iff envBase "topic" none
      ⟨"scrape_site", [("url", "x")], "c1"⟩ (by decide)
    simpa using h
  · have h := claim_C5_distillation_iff envBase "topic" none
      ⟨"web_search", [("query", "y")], "c2"⟩ (by decide)
    simpa using h

/-- Counterexample for C8: a request list headed by an unknown capability
name produces no observation at all — the dispatch aborts instead of
yielding one observation per request. -/
theorem claim_C8_counterexample :
    dispatchAll envBase "query" none [xyzRequest] = Except.error unboundLocalError := by
  decide

/-- Claim C8 (amended: restricted to requests whose names are all in the
routing table): the dispatcher yields exactly one tool-observation message
per capability request, tagged with that request's correlation identifier,
in request order. -/
theorem claim_C8_observation_per_request (env : Env) (q : String) :
    ∀ (tcs : List ToolCall) (prev : Option String),
      (∀ tc ∈ tcs, knownCapability tc.name = true) →
      ∃ msgs, dispatchAll env q prev tcs = Except.ok msgs ∧
        msgs.length = tcs.length ∧
        msgs.map Message.toolCallId = tcs.map (fun tc => some tc.id) := by
  intro tcs
  induction tcs with
  | nil => exact fun prev _ => ⟨[], rfl, rfl, rfl⟩
  | cons tc rest ih =>
    intro prev h
    obtain ⟨r, hr⟩ := dispatchOne_known env q prev tc (h tc (by simp))
    obtain ⟨msgs, hm, hlen, hmap⟩ :=
      ih (some r) (fun x hx => h x (by simp [hx]))
    refine ⟨Message.tool r tc.id :: msgs, ?_, ?_, ?_⟩
    · simp [dispatchAll, hr, hm]
    · simp [hlen]
    · simp [Message.toolCallId, hmap]

/-- Witness for C8: two known requests yield two observations tagged in
order. -/
theorem claim_C8_observation_per_request_witness :
    ∃ msgs, dispatchAll envBase "q" none
        [⟨"web_search", [("query", "x")], "a1"⟩, ⟨"execute_python", [], "a2"⟩] =
      Except.ok msgs ∧
      msgs.length = 2 ∧
      msgs.map Message.toolCallId = [some "a1", some "a2"] := by
  obtain ⟨msgs, h1, h2, h3⟩ := claim_C8_observation_per_request envBase "q"
    [⟨"web_search", [("query", "x")], "a1"⟩, ⟨"execute_python", [], "a2"⟩]
    none (by decide)
  exact ⟨msgs, h1, h2, h3⟩

theorem is_it_known_of_last_cached (st : AgentState) (l : List Message)
    (report : String)
    (h : st.messages = l ++ [Message.ai (memTag ++ report) []]) :
    is_it_known st = Route.known := by
  unfold is_it_known
  rw [h, List.getLast?_concat]
  simp [strContains_memTag report]

/-- Counterexample for C1: with a similarity-cache match at score 0.9 (at or
above the 0.85 threshold) *and* non-empty RAG context, the RAG system message
is appended after the cache-hit message; `is_it_known` inspects only the last
message, so the run routes to the planner instead of terminating at the
gate. -/
theorem claim_C1_counterexample :
    query_memory envBoth.memSearch (anchor [] "q").content memoryThreshold =
      Except.ok (some "cached report") ∧
    NodeKey.planner ∈ okTrace (run envBoth [] "q" "t" "u") := by
  constructor
  · decide
  · decide

/-- Claim C1 (amended: provided the cached report is non-empty and the
knowledge-retrieval lookup of the Cache Gate yields no context): whenever the
similarity cache returns a match at or above the 0.85 threshold, the run
terminates by the GATE-to-DONE transition with the cached text as the answer
and zero capability dispatches — the planner and executor nodes are never
entered. -/
theorem claim_C1_cache_bypass (env : Env) (history : List (String × String))
    (query thread_id user_id report : String)
    (hmem : query_memory env.memSearch (anchor history query).content memoryThreshold =
      Except.ok (some report))
    (hrep : report ≠ "")
    (hrag : retrieve_relevant_context env.ragSearch (anchor history query).content = none) :
    ∃ r, run env history query thread_id user_id = Except.ok r ∧
      r.trace = [NodeKey.memory_check] ∧
      r.answer = memTag ++ report ∧
      r.finalMsg = memTag ++ report := by
  have hcc : check_cache env (initialState history query thread_id user_id) =
      Except.ok [Message.ai (memTag ++ report) []] := by
    simp [check_cache, initialState, initMessages_head, hmem, hrag, hrep]
  simp only [run, hcc]
  rw [is_it_known_of_last_cached _ (initialState history query thread_id user_id).messages
    report rfl]
  refine ⟨_, rfl, rfl, ?_, rfl⟩
  simp [finishRun, Message.hasToolCalls, Message.content,
    memTag_append_ne_empty report]

/-- Witness for C1: a concrete cache hit at score 0.9 with empty RAG results
bypasses the loop. -/
theorem claim_C1_cache_bypass_witness :
    ∃ r, run envHit [] "q2" "t" "u" = Except.ok r ∧
      r.trace = [NodeKey.memory_check] ∧
      r.answer = memTag ++ "cached report" ∧
      r.finalMsg = memTag ++ "cached report" :=
  claim_C1_cache_bypass envHit [] "q2" "t" "u" "cached report"
    (by decide) (by decide) (by decide)

theorem finishRun_stored_head (q u fm : String) (st : AgentState)
    (tr : List NodeKey) (s : List (String × String))
    (hs : (finishRun (initMessages [] q) q u fm st tr).stored = some s) :
    s.head? = some ("user", q) := by
  simp only [finishRun] at hs
  split at hs
  · cases hs
    simp [messagesForStorage, initMessages, loadConversation]
  · exact absurd hs (by simp)

/-- Claim C6: the first message of a run's context is the original user query
(the new query for a fresh thread, the thread's first stored user message for
a continued one); the cache-gate messages are appended after it, the engine
only ever appends, so it stays first for the whole run; and the pruning step
never drops this first message. -/
theorem claim_C6_anchor_invariant :
    (∀ query, (initMessages [] query).head? = some (Message.human query)) ∧
    (∀ c rest query, (initMessages (("user", c) :: rest) query).head? =
      some (Message.human c)) ∧
    (∀ msgs, (prune msgs).head? = msgs.head?) ∧
    (∀ env history query thread_id user_id r,
      run env history query thread_id user_id = Except.ok r →
      r.state.messages.head? = some (anchor history query)) ∧
    (∀ env query thread_id user_id r s,
      run env [] query thread_id user_id = Except.ok r →
      r.stored = some s → s.head? = some ("user", query)) := by
  refine ⟨fun query => rfl, ?_, ?_, ?_, ?_⟩
  · intro c rest query
    simp [initMessages, loadConversation]
  · intro msgs
    unfold prune
    split
    · rename_i h
      cases msgs with
      | nil => simp at h
      | cons a t => simp
    · rfl
  · intro env history query thread_id user_id r heq
    have ha := initMessages_head history query
    simp only [run] at heq
    split at heq
    · exact absurd heq (by simp)
    · rename_i ctx hcc
      split at heq
      · cases heq
        simp only [finishRun]
        show ((initMessages history query) ++ ctx).head? = some (anchor history query)
        exact head?_append_left _ _ _ ha
      · split at heq
        · exact absurd heq (by simp)
        · rename_i er hee
          cases heq
          have hsthead : ((initMessages history query) ++ ctx).head? =
              some (anchor history query) := head?_append_left _ _ _ ha
          exact engineLoop_head env 19 _ _ _ er (anchor history query) hsthead hee
  · intro env query thread_id user_id r s heq hs
    simp only [run] at heq
    split at heq
    · exact absurd heq (by simp)
    · split at heq
      · cases heq
        exact finishRun_stored_head query user_id _ _ _ s hs
      · split at heq
        · exact absurd heq (by simp)
        · cases heq
          exact finishRun_stored_head query user_id _ _ _ s hs

/-- Witness for C6: in the baseline run the anchor stays first and the
stored conversation starts with the user query. -/
theorem claim_C6_anchor_invariant_witness :
    stateHeadOf (run envBase [] "q" "t" "u") = some (Message.human "q") ∧
    storedHeadOf (run envBase [] "q" "t" "u") = some ("user", "q") := by
  have h1 : run envBase [] "q" "t" "u" = Except.ok resultBase := by decide
  have h4 := claim_C6_anchor_invariant.2.2.2.1 envBase [] "q" "t" "u" resultBase h1
  have h5 := claim_C6_anchor_invariant.2.2.2.2 envBase "q" "t" "u" resultBase
    [("user", "q"), ("assistant", "The answer is 4.")] h1 (by decide)
  constructor
  · rw [h1]
    simp only [stateHeadOf]
    rw [h4]
    decide
  · calc storedHeadOf (run envBase [] "q" "t" "u")
        = [("user", "q"), ("assistant", "The answer is 4.")].head? := by
          rw [h1]; simp [storedHeadOf, resultBase]
      _ = some ("user", "q") := h5

/-- Counterexample for C7: a raised similarity-cache lookup is not caught
anywhere (neither `query_memory` nor `check_cache` has a handler), so the run
aborts instead of degrading to no additional context. -/
theorem claim_C7_counterexample :
    run envMemFail [] "q" "t" "u" =
      Except.error "PineconeError: connection failed" := by
  decide

/-- Claim C7 (amended): a failure of the knowledge-retrieval lookup during
the Cache Gate is caught and degrades to no additional context message, the
run proceeding to the reasoning step; a failure of the similarity-cache
lookup, by contrast, propagates and aborts the run. -/
theorem claim_C7_gate_degradation :
    (∀ (rs : String → Except String (List String)) (q e : String),
      rs q = Except.error e → retrieve_relevant_context rs q = none) ∧
    (∀ env history query thread_id user_id e,
      env.ragSearch (anchor history query).content = Except.error e →
      query_memory env.memSearch (anchor history query).content memoryThreshold =
        Except.ok none →
      check_cache env (initialState history query thread_id user_id) =
        Except.ok [] ∧
      is_it_known (initialState history query thread_id user_id) = Route.unknown) ∧
    (∀ env history query thread_id user_id e r,
      env.ragSearch (anchor history query).content = Except.error e →
      query_memory env.memSearch (anchor history query).content memoryThreshold =
        Except.ok none →
      run env history query thread_id user_id = Except.ok r →
      NodeKey.planner ∈ r.trace) ∧
    (∀ env history query thread_id user_id e,
      env.memSearch (anchor history query).content = Except.error e →
      run env history query thread_id user_id = Except.error e) := by
  have hret : ∀ (rs : String → Except String (List String)) (q e : String),
      rs q = Except.error e → retrieve_relevant_context rs q = none := by
    intro rs q e h
    simp [retrieve_relevant_context, h]
  have hgate : ∀ (env : Env) history (query thread_id user_id e : String),
      env.ragSearch (anchor history query).content = Except.error e →
      query_memory env.memSearch (anchor history query).content memoryThreshold =
        Except.ok none →
      check_cache env (initialState history query thread_id user_id) =
        Except.ok [] := by
    intro env history query thread_id user_id e hrag hmem
    have h1 := hret env.ragSearch (anchor history query).content e hrag
    simp [check_cache, initialState, initMessages_head, hmem, h1]
  have hunknown : ∀ history (query thread_id user_id : String),
      is_it_known (initialState history query thread_id user_id) = Route.unknown := by
    intro history query thread_id user_id
    unfold is_it_known
    rw [show (initialState history query thread_id user_id).messages =
      loadConversation history ++ [Message.human query] from rfl]
    rw [List.getLast?_concat]
  refine ⟨hret, ?_, ?_, ?_⟩
  · intro env history query thread_id user_id e hrag hmem
    exact ⟨hgate env history query thread_id user_id e hrag hmem,
      hunknown history query thread_id user_id⟩
  · intro env history query thread_id user_id e r hrag hmem heq
    have hcc := hgate env history query thread_id user_id e hrag hmem
    have hik' : is_it_known
        { messages := (initialState history query thread_id user_id).messages,
          user_id := (initialState history query thread_id user_id).user_id,
          thread_id := (initialState history query thread_id user_id).thread_id,
          steps := (initialState history query thread_id user_id).steps } =
        Route.unknown := hunknown history query thread_id user_id
    simp only [run, hcc, List.append_nil, hik'] at heq
    split at heq
    · exact absurd heq (by simp)
    · rename_i er hee
      cases heq
      obtain ⟨rest, hrest⟩ := engineLoop_trace env 19 _ _ _ er hee
      simp only [finishRun]
      rw [hrest]
      simp
  · intro env history query thread_id user_id e hmem
    have hq : query_memory env.memSearch (anchor history query).content
        memoryThreshold = Except.error e := by
      simp [query_memory, hmem]
    have hcc : check_cache env (initialState history query thread_id user_id) =
        Except.error e := by
      simp [check_cache, initialState, initMessages_head, hq]
    simp [run, hcc]

/-- Witness for C7: a failing RAG search degrades and the run still reaches
the planner; a failing cache lookup aborts the run. -/
theorem claim_C7_gate_degradation_witness :
    retrieve_relevant_context envRagFail.ragSearch "q" = none ∧
    check_cache envRagFail (initialState [] "q" "t" "u") = Except.ok [] ∧
    is_it_known (initialState [] "q" "t" "u") = Route.unknown ∧
    NodeKey.planner ∈ okTrace (run envRagFail [] "q" "t" "u") ∧
    run envMemFail [] "q7" "t" "u" =
      Except.error "PineconeError: connection failed" := by
  obtain ⟨hchk, hik⟩ := claim_C7_gate_degradation.2.1 envRagFail [] "q" "t" "u"
    "RagDown" (by decide) (by decide)
  refine ⟨claim_C7_gate_degradation.1 envRagFail.ragSearch "q" "RagDown" rfl,
    hchk, hik, ?_, claim_C7_gate_degradation.2.2.2 envMemFail [] "q7" "t" "u"
      "PineconeError: connection failed" rfl⟩
  cases hrun : run envRagFail [] "q" "t" "u" with
  | error e =>
    have h2 : okTrace (run envRagFail [] "q" "t" "u") =
        [NodeKey.memory_check, NodeKey.planner] := by decide
    rw [hrun] at h2
    simp [okTrace] at h2
  | ok r =>
    simpa [okTrace] using claim_C7_gate_degradation.2.2.1 envRagFail [] "q" "t" "u"
      "RagDown" r (by decide) (by decide) hrun
